import Mathlib

/-!
Shallow embedding of the two contracts of the repository:

* `BuildingBrillianceToken` (`src/contracts/BuildingBrillianceToken.sol`, first
  contract): an ERC20 token with staking, time-weighted reward accrual, a
  reward pool, pausing and an emergency withdrawal.
* `ValueNFT` (same file, second contract): an ERC721 registry of content-backed
  assets with a value calculation and a fixed-price marketplace.

Modelling conventions:
* `block.timestamp` and `msg.sender` are explicit arguments (`now`, `caller`);
  the contract's own address is the explicit argument `this`.
* Solidity `uint256` is modelled as `Nat`.  Every subtraction in the source is
  either guarded by an explicit `require` (modelled as the same guard) or can
  only underflow when the clock runs backwards; theorems that depend on the
  exact value of a clock difference carry the monotone-clock hypothesis
  `timestamp ≤ now` explicitly.
* A reverting call is `Except.error e`: the caller's state is unchanged by
  construction, which models the EVM's rollback-on-revert semantics.
* `address(0)` results of Solidity mappings to addresses are modelled as
  `Option.none` (for `_owners` and `tokenListings`); mappings to integers keep
  the Solidity default `0` (this in particular preserves the `contentToToken`
  sentinel behaviour of the source).
* The pause gate on every token movement is OpenZeppelin `ERC20Pausable`
  behaviour, wired in by the source's `_beforeTokenTransfer` override.
  Modelled from the spec: the dependency itself is not part of the repository;
  the spec records it as the `FungibleLedger` "pause gate" and the error kind
  `PausedState ("transfer attempted while paused")`.
-/

namespace BBSpec

/-- Error kinds of reverting paths.  Each constructor corresponds to one
`require` message of the source (or of the OpenZeppelin base contracts),
named after the spec's error taxonomy (spec section 7). -/
inductive ErrKind
  | unauthorized        -- AccessControl role check failed
  | invalidAmount       -- "Amount must be greater than 0" / "Reward rate cannot exceed 20%" / "Price must be greater than 0"
  | lockViolation       -- "Minimum lock period is 30 days" / "Maximum lock period is 365 days" / "Lock period not expired"
  | insufficientBalance -- "Insufficient balance" / ERC20 transfer exceeds balance
  | insufficientStake   -- "Insufficient staked amount"
  | insufficientPool    -- "Insufficient reward pool"
  | alreadyTokenized    -- "Content already tokenized"
  | valueTooLow         -- "Initial value too low"
  | notFound            -- "Token does not exist" / ERC721 invalid token id
  | notOwner            -- "Not token owner"
  | alreadyListed       -- "Already listed"
  | notListed           -- "NFT not listed" / "Not listed"
  | paymentMismatch     -- "Incorrect payment amount"
  | pausedState         -- "ERC20Pausable: token transfer while paused" / "Pausable: paused"
  | notPaused           -- "Pausable: not paused"
  | insufficientFunds   -- native payment exceeds the payer's funds
  | overflow            -- Solidity 0.8 checked-arithmetic panic (Panic(0x11))
  deriving DecidableEq

deriving instance DecidableEq for Except

/-- The error kind of a failed call, `none` on success. -/
def errKindOf {α : Type} : Except ErrKind α → Option ErrKind
  | .error e => some e
  | .ok _ => none

/-- The successful result, if any. -/
def okOf {α : Type} : Except ErrKind α → Option α
  | .error _ => none
  | .ok a => some a

/-! ## BuildingBrillianceToken: staking ledger -/

/-- `struct Stake` of the source (the `rewardDebt` field is declared but never
written to by the source; it is kept for fidelity). -/
structure Stake where
  amount : Nat
  timestamp : Nat
  rewardDebt : Nat
  lockPeriod : Nat
  deriving DecidableEq

/-- Storage of `BuildingBrillianceToken` as far as the claims reach:
ERC20 balances, the per-account stake and reward records, the global staking
counters, the pause flag and the role grants the modelled entry points check. -/
structure TokenState (Addr : Type) where
  balanceOf : Addr → Nat
  stakes : Addr → Stake
  rewards : Addr → Nat
  totalStaked : Nat
  rewardRate : Nat
  rewardPool : Nat
  lastRewardDistribution : Nat
  paused : Bool
  adminRole : Addr → Bool
  pauserRole : Addr → Bool
  rewardsRole : Addr → Bool

variable {Addr : Type} [DecidableEq Addr]

/-- `SECONDS_PER_YEAR = 365 days`. -/
def SECONDS_PER_YEAR : Nat := 31536000

/-- `INITIAL_SUPPLY = 100_000_000 * 10**18`. -/
def INITIAL_SUPPLY : Nat := 100000000 * 10 ^ 18

/-- OpenZeppelin `ERC20._transfer`, with the source's `_beforeTokenTransfer`
override chaining to `ERC20Pausable`.  Modelled from the spec: the pause gate
is the spec's `FungibleLedger` pause gate, error `PausedState`. -/
def erc20Transfer (s : TokenState Addr) (src dst : Addr) (amount : Nat) :
    Except ErrKind (TokenState Addr) :=
  if s.paused then .error .pausedState
  else if s.balanceOf src < amount then .error .insufficientBalance
  else
    let b1 := Function.update s.balanceOf src (s.balanceOf src - amount)
    let b2 := Function.update b1 dst (b1 dst + amount)
    .ok { s with balanceOf := b2 }

/-- `_updateRewards(user)`: settles the accrued reward into `rewards[user]`
and moves the checkpoint `stakes[user].timestamp` to `now`, but only when
`stakes[user].amount > 0`. -/
def updateRewards (s : TokenState Addr) (user : Addr) (now : Nat) : TokenState Addr :=
  let st := s.stakes user
  if 0 < st.amount then
    let timeStaked := now - st.timestamp
    let reward := st.amount * s.rewardRate * timeStaked / (SECONDS_PER_YEAR * 10000)
    { s with rewards := Function.update s.rewards user (s.rewards user + reward),
             stakes := Function.update s.stakes user { st with timestamp := now } }
  else s

/-- `_claimRewards()`: pays the full reward balance out of the reward pool,
reverting with `InsufficientPool` when the pool cannot cover it. -/
def claimRewardsInternal (this : Addr) (s : TokenState Addr) (caller : Addr) :
    Except ErrKind (TokenState Addr) :=
  let reward := s.rewards caller
  if 0 < reward then
    if s.rewardPool < reward then .error .insufficientPool
    else
      erc20Transfer
        { s with rewards := Function.update s.rewards caller 0,
                 rewardPool := s.rewardPool - reward } this caller reward
  else .ok s

/-- `stake(amount, lockPeriod)`. -/
def stakeOp (this : Addr) (s : TokenState Addr) (caller : Addr)
    (now amount lockPeriod : Nat) : Except ErrKind (TokenState Addr) :=
  if amount = 0 then .error .invalidAmount
  else if lockPeriod < 2592000 then .error .lockViolation      -- 30 days
  else if 31536000 < lockPeriod then .error .lockViolation     -- 365 days
  else if s.balanceOf caller < amount then .error .insufficientBalance
  else
    match erc20Transfer (updateRewards s caller now) caller this amount with
    | .error e => .error e
    | .ok s2 =>
      let st := s2.stakes caller
      .ok { s2 with
        stakes := Function.update s2.stakes caller
          { st with amount := st.amount + amount, timestamp := now, lockPeriod := lockPeriod },
        totalStaked := s2.totalStaked + amount }

/-- `unstake(amount)`. -/
def unstakeOp (this : Addr) (s : TokenState Addr) (caller : Addr)
    (now amount : Nat) : Except ErrKind (TokenState Addr) :=
  let st := s.stakes caller
  if st.amount < amount then .error .insufficientStake
  else if now < st.timestamp + st.lockPeriod then .error .lockViolation
  else
    match claimRewardsInternal this (updateRewards s caller now) caller with
    | .error e => .error e
    | .ok s2 =>
      let st2 := s2.stakes caller
      let s3 := { s2 with
        stakes := Function.update s2.stakes caller { st2 with amount := st2.amount - amount },
        totalStaked := s2.totalStaked - amount }
      erc20Transfer s3 this caller amount

/-- `claimRewards()`. -/
def claimRewardsOp (this : Addr) (s : TokenState Addr) (caller : Addr) (now : Nat) :
    Except ErrKind (TokenState Addr) :=
  claimRewardsInternal this (updateRewards s caller now) caller

/-- `distributeRewards(amount)` (REWARDS_ROLE). -/
def distributeRewardsOp (this : Addr) (s : TokenState Addr) (caller : Addr)
    (now amount : Nat) : Except ErrKind (TokenState Addr) :=
  if s.rewardsRole caller = false then .error .unauthorized
  else if s.balanceOf caller < amount then .error .insufficientBalance
  else
    match erc20Transfer s caller this amount with
    | .error e => .error e
    | .ok s1 => .ok { s1 with rewardPool := s1.rewardPool + amount,
                              lastRewardDistribution := now }

/-- `updateRewardRate(newRate)` (admin). -/
def updateRewardRateOp (s : TokenState Addr) (caller : Addr) (newRate : Nat) :
    Except ErrKind (TokenState Addr) :=
  if s.adminRole caller = false then .error .unauthorized
  else if 2000 < newRate then .error .invalidAmount
  else .ok { s with rewardRate := newRate }

/-- `pause()` (PAUSER_ROLE); OpenZeppelin `_pause` requires not yet paused. -/
def pauseOp (s : TokenState Addr) (caller : Addr) : Except ErrKind (TokenState Addr) :=
  if s.pauserRole caller = false then .error .unauthorized
  else if s.paused then .error .pausedState
  else .ok { s with paused := true }

/-- `unpause()` (PAUSER_ROLE); OpenZeppelin `_unpause` requires paused. -/
def unpauseOp (s : TokenState Addr) (caller : Addr) : Except ErrKind (TokenState Addr) :=
  if s.pauserRole caller = false then .error .unauthorized
  else if s.paused = false then .error .notPaused
  else .ok { s with paused := false }

/-- `emergencyWithdraw()` (admin, `whenPaused`): transfers the contract's own
token balance to the caller through the ordinary `_transfer`. -/
def emergencyWithdrawOp (this : Addr) (s : TokenState Addr) (caller : Addr) :
    Except ErrKind (TokenState Addr) :=
  if s.adminRole caller = false then .error .unauthorized
  else if s.paused = false then .error .notPaused
  else
    let balance := s.balanceOf this
    if 0 < balance then erc20Transfer s this caller balance
    else .ok s

/-- `pendingRewards(user)` (read-only). -/
def pendingRewards (s : TokenState Addr) (user : Addr) (now : Nat) : Nat :=
  let st := s.stakes user
  if st.amount = 0 then s.rewards user
  else
    let timeStaked := now - st.timestamp
    s.rewards user + st.amount * s.rewardRate * timeStaked / (SECONDS_PER_YEAR * 10000)

/-- Result record of `getStakeInfo(user)`. -/
structure StakeInfo where
  amount : Nat
  timestamp : Nat
  lockPeriod : Nat
  unlockTime : Nat
  canUnstake : Bool
  deriving DecidableEq

/-- `getStakeInfo(user)` (read-only). -/
def getStakeInfo (s : TokenState Addr) (user : Addr) (now : Nat) : StakeInfo :=
  let st := s.stakes user
  { amount := st.amount
    timestamp := st.timestamp
    lockPeriod := st.lockPeriod
    unlockTime := st.timestamp + st.lockPeriod
    canUnstake := decide (st.timestamp + st.lockPeriod ≤ now) }

/-- The constructor's state: initial supply minted to the admin, roles granted
as in the source constructor, nothing staked, rate 100 bps, pool empty. -/
def initialTokenState (admin rewardsManager : Addr) (deployTime : Nat) :
    TokenState Addr :=
  { balanceOf := fun a => if a = admin then INITIAL_SUPPLY else 0
    stakes := fun _ => ⟨0, 0, 0, 0⟩
    rewards := fun _ => 0
    totalStaked := 0
    rewardRate := 100
    rewardPool := 0
    lastRewardDistribution := deployTime
    paused := false
    adminRole := fun a => decide (a = admin)
    pauserRole := fun a => decide (a = admin)
    rewardsRole := fun a => decide (a = rewardsManager) }

/-- States of the staking token reachable from the constructor state by the
modelled entry points (any caller, any arguments, any call times). -/
inductive TReach (this : Addr) : TokenState Addr → Prop
  | init (admin rewardsManager : Addr) (deployTime : Nat) :
      TReach this (initialTokenState admin rewardsManager deployTime)
  | stake (s s' : TokenState Addr) (caller : Addr) (now amount lockPeriod : Nat)
      (h : TReach this s) (hop : stakeOp this s caller now amount lockPeriod = .ok s') :
      TReach this s'
  | unstake (s s' : TokenState Addr) (caller : Addr) (now amount : Nat)
      (h : TReach this s) (hop : unstakeOp this s caller now amount = .ok s') :
      TReach this s'
  | claim (s s' : TokenState Addr) (caller : Addr) (now : Nat)
      (h : TReach this s) (hop : claimRewardsOp this s caller now = .ok s') :
      TReach this s'
  | distribute (s s' : TokenState Addr) (caller : Addr) (now amount : Nat)
      (h : TReach this s) (hop : distributeRewardsOp this s caller now amount = .ok s') :
      TReach this s'
  | setRate (s s' : TokenState Addr) (caller : Addr) (newRate : Nat)
      (h : TReach this s) (hop : updateRewardRateOp s caller newRate = .ok s') :
      TReach this s'
  | pause (s s' : TokenState Addr) (caller : Addr)
      (h : TReach this s) (hop : pauseOp s caller = .ok s') : TReach this s'
  | unpause (s s' : TokenState Addr) (caller : Addr)
      (h : TReach this s) (hop : unpauseOp s caller = .ok s') : TReach this s'
  | withdraw (s s' : TokenState Addr) (caller : Addr)
      (h : TReach this s) (hop : emergencyWithdrawOp this s caller = .ok s') :
      TReach this s'
  | transfer (s s' : TokenState Addr) (src dst : Addr) (amount : Nat)
      (h : TReach this s) (hop : erc20Transfer s src dst amount = .ok s') :
      TReach this s'

/-! ## ValueNFT: value registry and marketplace -/

/-- `struct ValueData` of the source.  `creator = none` models the Solidity
default `address(0)` of a cleared record. -/
structure ValueData (Addr : Type) where
  contentId : String
  creator : Option Addr
  initialValue : Nat
  currentValue : Nat
  impactScore : Nat
  engagementScore : Nat
  qualityScore : Nat
  viewCount : Nat
  actionCount : Nat
  mintTimestamp : Nat
  lastValueUpdate : Nat
  isListed : Bool
  listPrice : Nat
  deriving DecidableEq

/-- The all-zero record a Solidity mapping returns for an untouched or
deleted key. -/
def defaultValueData : ValueData Addr :=
  { contentId := ""
    creator := none
    initialValue := 0
    currentValue := 0
    impactScore := 0
    engagementScore := 0
    qualityScore := 0
    viewCount := 0
    actionCount := 0
    mintTimestamp := 0
    lastValueUpdate := 0
    isListed := false
    listPrice := 0 }

/-- Storage of `ValueNFT` as far as the claims reach.  `owners t = none`
models a token that does not exist (`_exists(t) = false`). -/
structure NFTState (Addr : Type) where
  tokenIdCounter : Nat
  owners : Nat → Option Addr
  tokenURIs : Nat → String
  valueData : Nat → ValueData Addr
  contentToToken : String → Nat
  creatorTokens : Addr → List Nat
  tokenListings : Nat → Option Addr
  marketplaceFee : Nat
  feeRecipient : Addr
  ethBalance : Addr → Nat
  minterRole : Addr → Bool
  oracleRole : Addr → Bool

/-- `BASE_VALUE = 1 ether`. -/
def BASE_VALUE : Nat := 10 ^ 18

/-- `MAX_MULTIPLIER = 10000`. -/
def MAX_MULTIPLIER : Nat := 10000

/-- `VALUE_DECAY_RATE = 9950`. -/
def VALUE_DECAY_RATE : Nat := 9950

/-- `_calculateValue(tokenId)` as a function of the stored record and the
observation time, transcribed literally from the source: weighted composite
score, integer-division decay multiplier `9950^p / 10000^p`, action
multiplier clamped at `MAX_MULTIPLIER`, division by `10000^3`, floor at
`initialValue / 10`. -/
def calculateValue (data : ValueData Addr) (now : Nat) : Nat :=
  let compositeScore :=
    (data.impactScore * 40 + data.engagementScore * 35 + data.qualityScore * 25) / 100
  let timeSinceUpdate := now - data.lastValueUpdate
  let decayPeriods := timeSinceUpdate / 86400
  let decayMultiplier := VALUE_DECAY_RATE ^ decayPeriods / 10000 ^ decayPeriods
  let actionMultiplier :=
    if 0 < data.actionCount then
      let am := 10000 + data.actionCount * 100
      if MAX_MULTIPLIER < am then MAX_MULTIPLIER else am
    else 10000
  let newValue := data.initialValue * compositeScore * actionMultiplier * decayMultiplier /
    (10000 * 10000 * 10000)
  if newValue < data.initialValue / 10 then data.initialValue / 10 else newValue

/-- `2^256 - 1`, the largest `uint256` value. -/
def UINT256_MAX : Nat := 2 ^ 256 - 1

/-- Whether the Solidity 0.8 checked arithmetic of `_calculateValue` panics
with an overflow: true iff some intermediate product, sum or power of the
source's computation exceeds `uint256`.  The `Nat` arithmetic of
`calculateValue` is exact, so an EVM overflow corresponds exactly to one of
these mathematical values exceeding `UINT256_MAX`; whether any of them does
is independent of the evaluation order, and all overflow panics carry the
same error code, so a disjunction is faithful.  (In the source the live
hazard is the unbounded exponentiation `VALUE_DECAY_RATE ** decayPeriods`,
which exceeds `2^256` for every `decayPeriods ≥ 20`; the spec's section 9
flags exactly this.) -/
def calculateValuePanics (data : ValueData Addr) (now : Nat) : Bool :=
  let compositeScore :=
    (data.impactScore * 40 + data.engagementScore * 35 + data.qualityScore * 25) / 100
  let decayPeriods := (now - data.lastValueUpdate) / 86400
  let decayMultiplier := VALUE_DECAY_RATE ^ decayPeriods / 10000 ^ decayPeriods
  let actionMultiplier :=
    if 0 < data.actionCount then
      let am := 10000 + data.actionCount * 100
      if MAX_MULTIPLIER < am then MAX_MULTIPLIER else am
    else 10000
  decide (UINT256_MAX < data.impactScore * 40) ||
  decide (UINT256_MAX < data.engagementScore * 35) ||
  decide (UINT256_MAX < data.qualityScore * 25) ||
  decide (UINT256_MAX < data.impactScore * 40 + data.engagementScore * 35) ||
  decide (UINT256_MAX <
    data.impactScore * 40 + data.engagementScore * 35 + data.qualityScore * 25) ||
  decide (UINT256_MAX < VALUE_DECAY_RATE ^ decayPeriods) ||
  decide (UINT256_MAX < 10000 ^ decayPeriods) ||
  decide (UINT256_MAX < data.actionCount * 100) ||
  decide (UINT256_MAX < 10000 + data.actionCount * 100) ||
  decide (UINT256_MAX < data.initialValue * compositeScore) ||
  decide (UINT256_MAX < data.initialValue * compositeScore * actionMultiplier) ||
  decide (UINT256_MAX <
    data.initialValue * compositeScore * actionMultiplier * decayMultiplier)

/-- `_calculateValue` under Solidity 0.8 checked `uint256` arithmetic: the
call reverts with the overflow panic when an intermediate operation exceeds
`uint256`, and returns the exact `calculateValue` result otherwise. -/
def calculateValueChecked (data : ValueData Addr) (now : Nat) : Except ErrKind Nat :=
  if calculateValuePanics data now then .error .overflow
  else .ok (calculateValue data now)

/-- `mintValueNFT(to, contentId, tokenURI, initialValue)` (MINTER_ROLE),
returning the fresh token id next to the updated state. -/
def mintValueNFT (s : NFTState Addr) (caller rcpt : Addr) (contentId tokenURI : String)
    (initialValue now : Nat) : Except ErrKind (NFTState Addr × Nat) :=
  if s.minterRole caller = false then .error .unauthorized
  else if s.contentToToken contentId ≠ 0 then .error .alreadyTokenized
  else if initialValue < BASE_VALUE / 10 then .error .valueTooLow
  else
    let tokenId := s.tokenIdCounter
    let data : ValueData Addr :=
      { contentId := contentId
        creator := some rcpt
        initialValue := initialValue
        currentValue := initialValue
        impactScore := 5000
        engagementScore := 5000
        qualityScore := 7500
        viewCount := 0
        actionCount := 0
        mintTimestamp := now
        lastValueUpdate := now
        isListed := false
        listPrice := 0 }
    .ok ({ s with
      tokenIdCounter := tokenId + 1
      owners := Function.update s.owners tokenId (some rcpt)
      tokenURIs := Function.update s.tokenURIs tokenId tokenURI
      valueData := Function.update s.valueData tokenId data
      contentToToken := Function.update s.contentToToken contentId tokenId
      creatorTokens := Function.update s.creatorTokens rcpt (s.creatorTokens rcpt ++ [tokenId]) },
      tokenId)

/-- `updateValue(tokenId, ...)` (ORACLE_ROLE): overwrites the five metric
fields, then recomputes the value (reading the metrics just written but the
old `lastValueUpdate`), stores it and moves `lastValueUpdate` to `now`. -/
def updateValueOp (s : NFTState Addr) (caller : Addr)
    (tokenId newImpactScore newEngagementScore newQualityScore viewCount actionCount now : Nat) :
    Except ErrKind (NFTState Addr) :=
  if s.oracleRole caller = false then .error .unauthorized
  else if (s.owners tokenId).isNone then .error .notFound
  else
    let d0 := s.valueData tokenId
    let d1 := { d0 with
      impactScore := newImpactScore
      engagementScore := newEngagementScore
      qualityScore := newQualityScore
      viewCount := viewCount
      actionCount := actionCount }
    match calculateValueChecked d1 now with
    | .error e => .error e
    | .ok newValue =>
      let d2 := { d1 with currentValue := newValue, lastValueUpdate := now }
      .ok { s with valueData := Function.update s.valueData tokenId d2 }

/-- `listNFT(tokenId, price)`. -/
def listNFTOp (s : NFTState Addr) (caller : Addr) (tokenId price : Nat) :
    Except ErrKind (NFTState Addr) :=
  match s.owners tokenId with
  | none => .error .notFound
  | some owner =>
    if owner ≠ caller then .error .notOwner
    else if price = 0 then .error .invalidAmount
    else if (s.valueData tokenId).isListed then .error .alreadyListed
    else .ok { s with
      valueData := Function.update s.valueData tokenId
        { s.valueData tokenId with isListed := true, listPrice := price }
      tokenListings := Function.update s.tokenListings tokenId (some caller) }

/-- `unlistNFT(tokenId)`. -/
def unlistNFTOp (s : NFTState Addr) (caller : Addr) (tokenId : Nat) :
    Except ErrKind (NFTState Addr) :=
  match s.owners tokenId with
  | none => .error .notFound
  | some owner =>
    if owner ≠ caller then .error .notOwner
    else if (s.valueData tokenId).isListed = false then .error .notListed
    else .ok { s with
      valueData := Function.update s.valueData tokenId
        { s.valueData tokenId with isListed := false, listPrice := 0 }
      tokenListings := Function.update s.tokenListings tokenId none }

/-- `buyNFT(tokenId)` with `msg.value = msgValue`: checks the listing and the
exact payment, splits the price into the marketplace fee and the seller
amount, clears the listing, transfers ownership and pays out. -/
def buyNFT (s : NFTState Addr) (buyer : Addr) (tokenId msgValue : Nat) :
    Except ErrKind (NFTState Addr) :=
  if (s.valueData tokenId).isListed = false then .error .notListed
  else if msgValue ≠ (s.valueData tokenId).listPrice then .error .paymentMismatch
  else
    match s.owners tokenId with
    | none => .error .notFound
    | some seller =>
      if s.ethBalance buyer < msgValue then .error .insufficientFunds
      else
        let price := msgValue
        let fee := price * s.marketplaceFee / 10000
        let sellerAmount := price - fee
        let b0 := Function.update s.ethBalance buyer (s.ethBalance buyer - msgValue)
        let b1 := Function.update b0 seller (b0 seller + sellerAmount)
        let b2 := Function.update b1 s.feeRecipient (b1 s.feeRecipient + fee)
        .ok { s with
          valueData := Function.update s.valueData tokenId
            { s.valueData tokenId with isListed := false, listPrice := 0 }
          tokenListings := Function.update s.tokenListings tokenId none
          owners := Function.update s.owners tokenId (some buyer)
          ethBalance := b2 }

/-- `getCurrentValue(tokenId)` (read-only). -/
def getCurrentValue (s : NFTState Addr) (tokenId now : Nat) : Except ErrKind Nat :=
  if (s.owners tokenId).isNone then .error .notFound
  else calculateValueChecked (s.valueData tokenId) now

/-- `burn(tokenId)` (ERC721Burnable, owner only in this model) followed by the
source's `_burn` override: clears the record, the content mapping and any
listing. -/
def burnNFTOp (s : NFTState Addr) (caller : Addr) (tokenId : Nat) :
    Except ErrKind (NFTState Addr) :=
  match s.owners tokenId with
  | none => .error .notFound
  | some owner =>
    if owner ≠ caller then .error .notOwner
    else
      let cid := (s.valueData tokenId).contentId
      .ok { s with
        owners := Function.update s.owners tokenId none
        valueData := Function.update s.valueData tokenId defaultValueData
        contentToToken := Function.update s.contentToToken cid 0
        tokenListings := Function.update s.tokenListings tokenId none }

/-- The constructor's state of `ValueNFT`: counter at zero, no tokens, fee
250 bps, roles granted as in the source constructor.  The native balances are
an arbitrary environment parameter. -/
def initialNFTState (minter oracle feeRecip : Addr) (bal : Addr → Nat) : NFTState Addr :=
  { tokenIdCounter := 0
    owners := fun _ => none
    tokenURIs := fun _ => ""
    valueData := fun _ => defaultValueData
    contentToToken := fun _ => 0
    creatorTokens := fun _ => []
    tokenListings := fun _ => none
    marketplaceFee := 250
    feeRecipient := feeRecip
    ethBalance := bal
    minterRole := fun a => decide (a = minter)
    oracleRole := fun a => decide (a = oracle) }

/-- States of `ValueNFT` reachable from the constructor state by the modelled
entry points. -/
inductive NReach : NFTState Addr → Prop
  | init (minter oracle feeRecip : Addr) (bal : Addr → Nat) :
      NReach (initialNFTState minter oracle feeRecip bal)
  | mint (s : NFTState Addr) (s' : NFTState Addr × Nat) (caller rcpt : Addr)
      (contentId tokenURI : String) (initialValue now : Nat)
      (h : NReach s)
      (hop : mintValueNFT s caller rcpt contentId tokenURI initialValue now = .ok s') :
      NReach s'.1
  | update (s s' : NFTState Addr) (caller : Addr) (t i e q v a now : Nat)
      (h : NReach s) (hop : updateValueOp s caller t i e q v a now = .ok s') : NReach s'
  | list (s s' : NFTState Addr) (caller : Addr) (t price : Nat)
      (h : NReach s) (hop : listNFTOp s caller t price = .ok s') : NReach s'
  | unlist (s s' : NFTState Addr) (caller : Addr) (t : Nat)
      (h : NReach s) (hop : unlistNFTOp s caller t = .ok s') : NReach s'
  | buy (s s' : NFTState Addr) (buyer : Addr) (t msgValue : Nat)
      (h : NReach s) (hop : buyNFT s buyer t msgValue = .ok s') : NReach s'
  | burn (s s' : NFTState Addr) (caller : Addr) (t : Nat)
      (h : NReach s) (hop : burnNFTOp s caller t = .ok s') : NReach s'

/-! ## Shared lemmas: staking side -/

/-- Settlement on a zero stake is a no-op (the `if` in `_updateRewards`). -/
theorem updateRewards_zero (s : TokenState Addr) (u : Addr) (now : Nat)
    (h : (s.stakes u).amount = 0) : updateRewards s u now = s := by
  simp only [updateRewards]
  rw [if_neg]
  omega

/-- Settlement on a nonzero stake: the accrual formula and the checkpoint. -/
theorem updateRewards_effect (s : TokenState Addr) (u : Addr) (now : Nat)
    (h : 0 < (s.stakes u).amount) :
    (updateRewards s u now).rewards u
        = s.rewards u + (s.stakes u).amount * s.rewardRate * (now - (s.stakes u).timestamp)
            / (SECONDS_PER_YEAR * 10000) ∧
    (updateRewards s u now).stakes u = { s.stakes u with timestamp := now } := by
  simp only [updateRewards, if_pos h]
  exact ⟨by simp, by simp⟩

/-- `_updateRewards` never changes any staked amount. -/
theorem updateRewards_stakes_amount (s : TokenState Addr) (u : Addr) (now : Nat) (a : Addr) :
    ((updateRewards s u now).stakes a).amount = (s.stakes a).amount := by
  simp only [updateRewards]
  split
  · rcases eq_or_ne a u with h | h
    · subst h; simp
    · simp [Function.update_noteq h]
  · rfl

/-- `_updateRewards` touches only `rewards` and `stakes`. -/
theorem updateRewards_frame (s : TokenState Addr) (u : Addr) (now : Nat) :
    (updateRewards s u now).totalStaked = s.totalStaked ∧
    (updateRewards s u now).rewardPool = s.rewardPool ∧
    (updateRewards s u now).balanceOf = s.balanceOf ∧
    (updateRewards s u now).paused = s.paused ∧
    (updateRewards s u now).rewardRate = s.rewardRate := by
  simp only [updateRewards]
  split <;> simp

/-- A successful `_transfer` touches only `balanceOf`. -/
theorem erc20Transfer_frame {s s' : TokenState Addr} {x y : Addr} {amt : Nat}
    (h : erc20Transfer s x y amt = .ok s') :
    s'.stakes = s.stakes ∧ s'.totalStaked = s.totalStaked ∧ s'.rewards = s.rewards ∧
    s'.rewardPool = s.rewardPool ∧ s'.paused = s.paused ∧ s'.rewardRate = s.rewardRate := by
  simp only [erc20Transfer] at h
  split at h
  · exact Except.noConfusion h
  · split at h
    · exact Except.noConfusion h
    · cases h
      exact ⟨rfl, rfl, rfl, rfl, rfl, rfl⟩

/-- A successful `_claimRewards` leaves every stake record and `totalStaked`
unchanged. -/
theorem claimRewardsInternal_frame {this : Addr} {s s' : TokenState Addr} {c : Addr}
    (h : claimRewardsInternal this s c = .ok s') :
    s'.stakes = s.stakes ∧ s'.totalStaked = s.totalStaked ∧ s'.paused = s.paused := by
  simp only [claimRewardsInternal] at h
  split at h
  · split at h
    · exact Except.noConfusion h
    · obtain ⟨h1, h2, _, _, h5, _⟩ := erc20Transfer_frame h
      exact ⟨h1, h2, h5⟩
  · cases h
    exact ⟨rfl, rfl, rfl⟩

/-- The ledger-wide sum of staked amounts over all accounts. -/
def stakeSum [Fintype Addr] (s : TokenState Addr) : Nat :=
  ∑ a, (s.stakes a).amount

/-- Splitting the stake sum at one account. -/
theorem sum_amount_split [Fintype Addr] (f : Addr → Stake) (x : Addr) :
    ∑ a, (f a).amount = (f x).amount + ∑ a ∈ Finset.univ.erase x, (f a).amount :=
  (Finset.add_sum_erase _ _ (Finset.mem_univ x)).symm

/-- The stake sum after rewriting one account's record. -/
theorem sum_amount_update [Fintype Addr] (f : Addr → Stake) (x : Addr) (v : Stake) :
    ∑ a, ((Function.update f x v) a).amount
      = v.amount + ∑ a ∈ Finset.univ.erase x, (f a).amount := by
  have h : ∀ a, ((Function.update f x v) a).amount
      = Function.update (fun b => (f b).amount) x v.amount a := fun a =>
    Function.apply_update (fun _ st => st.amount) f x v a
  simp only [h]
  rw [Finset.sum_update_of_mem (Finset.mem_univ x), Finset.sdiff_singleton_eq_erase]

/-- One account's stake never exceeds the ledger-wide sum. -/
theorem single_le_stakeSum [Fintype Addr] (s : TokenState Addr) (x : Addr) :
    (s.stakes x).amount ≤ stakeSum s :=
  Finset.single_le_sum (f := fun a => (s.stakes a).amount)
    (fun _ _ => Nat.zero_le _) (Finset.mem_univ x)

/-- Effect of a successful `stake` on the counter and the sum. -/
theorem stakeOp_sum [Fintype Addr] {this : Addr} {s s' : TokenState Addr} {c : Addr}
    {now amt lock : Nat} (hop : stakeOp this s c now amt lock = .ok s') :
    s'.totalStaked = s.totalStaked + amt ∧ stakeSum s' = stakeSum s + amt := by
  simp only [stakeOp] at hop
  split at hop
  · exact Except.noConfusion hop
  split at hop
  · exact Except.noConfusion hop
  split at hop
  · exact Except.noConfusion hop
  split at hop
  · exact Except.noConfusion hop
  split at hop
  · exact Except.noConfusion hop
  next s2 heq =>
    cases hop
    obtain ⟨hst, hts, _⟩ := erc20Transfer_frame heq
    have hts1 := (updateRewards_frame s c now).1
    have hamt : ∀ a, (s2.stakes a).amount = (s.stakes a).amount := by
      intro a
      rw [hst]
      exact updateRewards_stakes_amount s c now a
    have hE : ∑ a ∈ Finset.univ.erase c, (s2.stakes a).amount
        = ∑ a ∈ Finset.univ.erase c, (s.stakes a).amount :=
      Finset.sum_congr rfl (fun a _ => hamt a)
    have hc := hamt c
    constructor
    · dsimp only
      omega
    · simp only [stakeSum]
      try dsimp only
      rw [sum_amount_update, sum_amount_split s.stakes c, hE, hc]
      try dsimp only
      omega

/-- Effect of a successful `unstake` on the counter and the sum; the unstaked
amount never exceeds the caller's recorded stake. -/
theorem unstakeOp_sum [Fintype Addr] {this : Addr} {s s' : TokenState Addr} {c : Addr}
    {now amt : Nat} (hop : unstakeOp this s c now amt = .ok s') :
    amt ≤ (s.stakes c).amount ∧ s'.totalStaked = s.totalStaked - amt ∧
    stakeSum s' + amt = stakeSum s := by
  simp only [unstakeOp] at hop
  split at hop
  · exact Except.noConfusion hop
  next hle =>
  split at hop
  · exact Except.noConfusion hop
  split at hop
  · exact Except.noConfusion hop
  next s2 heq =>
    obtain ⟨hst2, hts2, _⟩ := claimRewardsInternal_frame heq
    obtain ⟨hst', hts', _, _, _, _⟩ := erc20Transfer_frame hop
    have hts1 := (updateRewards_frame s c now).1
    have hamt : ∀ a, (s2.stakes a).amount = (s.stakes a).amount := by
      intro a
      rw [hst2]
      exact updateRewards_stakes_amount s c now a
    have hE : ∑ a ∈ Finset.univ.erase c, (s2.stakes a).amount
        = ∑ a ∈ Finset.univ.erase c, (s.stakes a).amount :=
      Finset.sum_congr rfl (fun a _ => hamt a)
    have hc := hamt c
    refine ⟨by omega, ?_, ?_⟩
    · rw [hts']
      dsimp only
      omega
    · simp only [stakeSum]
      rw [hst']
      try dsimp only
      rw [sum_amount_update, sum_amount_split s.stakes c, hE, hc]
      try dsimp only
      omega

/-- A successful `claimRewards` leaves every staked amount and `totalStaked`
unchanged. -/
theorem claimRewardsOp_stakes {this : Addr} {s s' : TokenState Addr} {c : Addr} {now : Nat}
    (hop : claimRewardsOp this s c now = .ok s') :
    (∀ a, (s'.stakes a).amount = (s.stakes a).amount) ∧ s'.totalStaked = s.totalStaked := by
  simp only [claimRewardsOp] at hop
  obtain ⟨hst, hts, _⟩ := claimRewardsInternal_frame hop
  refine ⟨?_, ?_⟩
  · intro a
    rw [hst]
    exact updateRewards_stakes_amount s c now a
  · rw [hts]
    exact (updateRewards_frame s c now).1

/-- A successful `distributeRewards` leaves stakes and `totalStaked` unchanged. -/
theorem distributeRewardsOp_stakes {this : Addr} {s s' : TokenState Addr} {c : Addr}
    {now amt : Nat} (hop : distributeRewardsOp this s c now amt = .ok s') :
    s'.stakes = s.stakes ∧ s'.totalStaked = s.totalStaked := by
  simp only [distributeRewardsOp] at hop
  split at hop
  · exact Except.noConfusion hop
  split at hop
  · exact Except.noConfusion hop
  split at hop
  · exact Except.noConfusion hop
  next s1 heq =>
    cases hop
    obtain ⟨h1, h2, _⟩ := erc20Transfer_frame heq
    exact ⟨h1, h2⟩

/-- A successful `emergencyWithdraw` leaves stakes and `totalStaked` unchanged. -/
theorem emergencyWithdrawOp_stakes {this : Addr} {s s' : TokenState Addr} {c : Addr}
    (hop : emergencyWithdrawOp this s c = .ok s') :
    s'.stakes = s.stakes ∧ s'.totalStaked = s.totalStaked := by
  simp only [emergencyWithdrawOp] at hop
  split at hop
  · exact Except.noConfusion hop
  split at hop
  · exact Except.noConfusion hop
  split at hop
  · obtain ⟨h1, h2, _⟩ := erc20Transfer_frame hop
    exact ⟨h1, h2⟩
  · cases hop
    exact ⟨rfl, rfl⟩

/-- C6 invariant, proved by induction over reachability: in every reachable
state of the staking token the global counter equals the per-account sum. -/
theorem treach_totalStaked_eq_sum [Fintype Addr] {this : Addr} {s : TokenState Addr}
    (h : TReach this s) : s.totalStaked = stakeSum s := by
  induction h with
  | init admin rm t => simp [initialTokenState, stakeSum]
  | stake s s' c now amt lock h hop ih =>
      obtain ⟨h1, h2⟩ := stakeOp_sum hop
      omega
  | unstake s s' c now amt h hop ih =>
      obtain ⟨h1, h2, h3⟩ := unstakeOp_sum hop
      have h4 := single_le_stakeSum s c
      omega
  | claim s s' c now h hop ih =>
      obtain ⟨h1, h2⟩ := claimRewardsOp_stakes hop
      have h3 : stakeSum s' = stakeSum s := Finset.sum_congr rfl (fun a _ => h1 a)
      omega
  | distribute s s' c now amt h hop ih =>
      obtain ⟨h1, h2⟩ := distributeRewardsOp_stakes hop
      rw [h2, ih]
      simp only [stakeSum, h1]
  | setRate s s' c newRate h hop ih =>
      simp only [updateRewardRateOp] at hop
      split at hop
      · exact Except.noConfusion hop
      split at hop
      · exact Except.noConfusion hop
      cases hop
      exact ih
  | pause s s' c h hop ih =>
      simp only [pauseOp] at hop
      split at hop
      · exact Except.noConfusion hop
      split at hop
      · exact Except.noConfusion hop
      cases hop
      exact ih
  | unpause s s' c h hop ih =>
      simp only [unpauseOp] at hop
      split at hop
      · exact Except.noConfusion hop
      split at hop
      · exact Except.noConfusion hop
      cases hop
      exact ih
  | withdraw s s' c h hop ih =>
      obtain ⟨h1, h2⟩ := emergencyWithdrawOp_stakes hop
      rw [h2, ih]
      simp only [stakeSum, h1]
  | transfer s s' src dst amt h hop ih =>
      obtain ⟨h1, h2, _⟩ := erc20Transfer_frame hop
      rw [h2, ih]
      simp only [stakeSum, h1]

/-! ## Shared lemmas: ValueNFT side -/

/-- The final clamp of the value calculation. -/
theorem floor_le_ite (x y : Nat) : y ≤ if x < y then y else x := by
  split <;> omega

/-- The value calculation never goes below a tenth of the initial value. -/
theorem calculateValue_floor (d : ValueData Addr) (now : Nat) :
    d.initialValue / 10 ≤ calculateValue d now := by
  simp only [calculateValue]
  exact floor_le_ite _ _

/-- In integer arithmetic, `9950^p / 10000^p = 0` as soon as `p ≥ 1`. -/
theorem decayMultiplier_eq_zero {p : Nat} (hp : p ≠ 0) :
    VALUE_DECAY_RATE ^ p / 10000 ^ p = 0 :=
  Nat.div_eq_of_lt (Nat.pow_lt_pow_left (by norm_num [VALUE_DECAY_RATE]) hp)

/-- Once at least one decay period has elapsed, the computed value collapses to
the floor `initialValue / 10`, whatever the scores and the action count. -/
theorem calculateValue_stale (d : ValueData Addr) (now : Nat)
    (h : d.lastValueUpdate + 86400 ≤ now) :
    calculateValue d now = d.initialValue / 10 := by
  have hp : (now - d.lastValueUpdate) / 86400 ≠ 0 := by
    have h1 : 1 ≤ (now - d.lastValueUpdate) / 86400 :=
      (Nat.one_le_div_iff (by norm_num)).mpr (by omega)
    omega
  simp only [calculateValue, decayMultiplier_eq_zero hp, Nat.mul_zero, Nat.zero_div]
  split <;> omega

/-- The per-record floor property (C5's invariant shape). -/
def valueFloorInv (s : NFTState Addr) : Prop :=
  ∀ t, (s.valueData t).initialValue / 10 ≤ (s.valueData t).currentValue

/-- Writing one record that satisfies the floor preserves the invariant. -/
theorem valueFloorInv_update {s : NFTState Addr} (hinv : valueFloorInv s) (t : Nat)
    (d : ValueData Addr) (hd : d.initialValue / 10 ≤ d.currentValue) (u : Nat) :
    ((Function.update s.valueData t d) u).initialValue / 10
      ≤ ((Function.update s.valueData t d) u).currentValue := by
  rcases eq_or_ne u t with h | h
  · subst h
    rw [Function.update_same]
    exact hd
  · rw [Function.update_noteq h]
    exact hinv u

/-- `mintValueNFT` preserves the floor invariant. -/
theorem mint_preserves_floor {s : NFTState Addr} {p : NFTState Addr × Nat}
    {c r : Addr} {cid uri : String} {iv now : Nat}
    (hop : mintValueNFT s c r cid uri iv now = .ok p)
    (hinv : valueFloorInv s) : valueFloorInv p.1 := by
  simp only [mintValueNFT] at hop
  split at hop
  · exact Except.noConfusion hop
  split at hop
  · exact Except.noConfusion hop
  split at hop
  · exact Except.noConfusion hop
  cases hop
  intro u
  dsimp only
  refine valueFloorInv_update hinv _ _ ?_ u
  exact Nat.div_le_self iv 10

/-- The floor lemma, restated for a record whose five metric fields were just
overwritten (the shape `updateValue` computes with). -/
theorem calculateValue_floor_metrics (d : ValueData Addr) (i e q v a now : Nat) :
    d.initialValue / 10 ≤ calculateValue
      { d with
        impactScore := i
        engagementScore := e
        qualityScore := q
        viewCount := v
        actionCount := a } now :=
  calculateValue_floor
    { d with
      impactScore := i
      engagementScore := e
      qualityScore := q
      viewCount := v
      actionCount := a } now

/-- `updateValue` preserves the floor invariant. -/
theorem updateValue_preserves_floor {s s' : NFTState Addr} {c : Addr}
    {t i e q v a now : Nat}
    (hop : updateValueOp s c t i e q v a now = .ok s')
    (hinv : valueFloorInv s) : valueFloorInv s' := by
  simp only [updateValueOp] at hop
  split at hop
  · exact Except.noConfusion hop
  split at hop
  · exact Except.noConfusion hop
  split at hop
  · exact Except.noConfusion hop
  next newValue heq =>
    cases hop
    intro u
    dsimp only
    refine valueFloorInv_update hinv _ _ ?_ u
    simp only [calculateValueChecked] at heq
    split at heq
    · exact Except.noConfusion heq
    · cases heq
      exact calculateValue_floor_metrics (s.valueData t) i e q v a now

/-- `listNFT` preserves the floor invariant. -/
theorem list_preserves_floor {s s' : NFTState Addr} {c : Addr} {t price : Nat}
    (hop : listNFTOp s c t price = .ok s')
    (hinv : valueFloorInv s) : valueFloorInv s' := by
  simp only [listNFTOp] at hop
  split at hop
  · exact Except.noConfusion hop
  split at hop
  · exact Except.noConfusion hop
  split at hop
  · exact Except.noConfusion hop
  split at hop
  · exact Except.noConfusion hop
  cases hop
  intro u
  dsimp only
  refine valueFloorInv_update hinv _ _ ?_ u
  exact hinv t

/-- `unlistNFT` preserves the floor invariant. -/
theorem unlist_preserves_floor {s s' : NFTState Addr} {c : Addr} {t : Nat}
    (hop : unlistNFTOp s c t = .ok s')
    (hinv : valueFloorInv s) : valueFloorInv s' := by
  simp only [unlistNFTOp] at hop
  split at hop
  · exact Except.noConfusion hop
  split at hop
  · exact Except.noConfusion hop
  split at hop
  · exact Except.noConfusion hop
  cases hop
  intro u
  dsimp only
  refine valueFloorInv_update hinv _ _ ?_ u
  exact hinv t

/-- `buyNFT` preserves the floor invariant. -/
theorem buy_preserves_floor {s s' : NFTState Addr} {b : Addr} {t m : Nat}
    (hop : buyNFT s b t m = .ok s')
    (hinv : valueFloorInv s) : valueFloorInv s' := by
  simp only [buyNFT] at hop
  split at hop
  · exact Except.noConfusion hop
  split at hop
  · exact Except.noConfusion hop
  split at hop
  · exact Except.noConfusion hop
  split at hop
  · exact Except.noConfusion hop
  cases hop
  intro u
  dsimp only
  refine valueFloorInv_update hinv _ _ ?_ u
  exact hinv t

/-- `burn` preserves the floor invariant (the cleared record is all zero). -/
theorem burn_preserves_floor {s s' : NFTState Addr} {c : Addr} {t : Nat}
    (hop : burnNFTOp s c t = .ok s')
    (hinv : valueFloorInv s) : valueFloorInv s' := by
  simp only [burnNFTOp] at hop
  split at hop
  · exact Except.noConfusion hop
  split at hop
  · exact Except.noConfusion hop
  cases hop
  intro u
  dsimp only
  refine valueFloorInv_update hinv _ _ ?_ u
  simp [defaultValueData]

/-- C5 invariant, by induction over `NReach`: every reachable state of the
registry satisfies the per-record value floor. -/
theorem nreach_floor {s : NFTState Addr} (h : NReach s) : valueFloorInv s := by
  induction h with
  | init minter oracle feeRecip bal =>
      intro t
      simp [initialNFTState, defaultValueData]
  | mint s p c r cid uri iv now h hop ih => exact mint_preserves_floor hop ih
  | update s s' c t i e q v a now h hop ih => exact updateValue_preserves_floor hop ih
  | list s s' c t price h hop ih => exact list_preserves_floor hop ih
  | unlist s s' c t h hop ih => exact unlist_preserves_floor hop ih
  | buy s s' b t m h hop ih => exact buy_preserves_floor hop ih
  | burn s s' c t h hop ih => exact burn_preserves_floor hop ih

/-! ## Concrete scenario states

Small closed runs used by the counterexample and witness theorems.  Addresses
are `Fin 4`; `thisT` stands for the staking contract's own address. -/

/-- Content identifier used in the scenarios. -/
def contentA : String := "alpha"

/-- Token URI used in the scenarios. -/
def uriA : String := "meta"

/-- A user account. -/
def aliceN : Fin 4 := 0

/-- The account holding MINTER_ROLE in the scenarios. -/
def minterN : Fin 4 := 1

/-- The account holding ORACLE_ROLE in the scenarios. -/
def oracleN : Fin 4 := 2

/-- The marketplace fee recipient in the scenarios. -/
def feeRecN : Fin 4 := 3

/-- Fresh `ValueNFT` deployment. -/
def nftS0 : NFTState (Fin 4) := initialNFTState minterN oracleN feeRecN (fun _ => 0)

/-- First mint: `contentA`, initial value `10^18` (1 ether), at time 1000. -/
def nftMintRun : Except ErrKind (NFTState (Fin 4) × Nat) :=
  mintValueNFT nftS0 minterN aliceN contentA uriA (10 ^ 18) 1000

/-- State after the first mint (token id 0). -/
def nftS1 : NFTState (Fin 4) :=
  match nftMintRun with
  | .ok p => p.1
  | .error _ => nftS0

/-- Second mint of the *same* content identifier, at time 2000. -/
def nftMintRun2 : Except ErrKind (NFTState (Fin 4) × Nat) :=
  mintValueNFT nftS1 minterN aliceN contentA uriA (10 ^ 18) 2000

/-- State after the second mint (token id 1). -/
def nftS2 : NFTState (Fin 4) :=
  match nftMintRun2 with
  | .ok p => p.1
  | .error _ => nftS1

/-! ## Claim theorems -/

/-- C1.  An asset freshly minted by `mintValueNFT` (default scores
impact 5000 / engagement 5000 / quality 7500, zero actions, initial value
`10^18`) queried by `getCurrentValue` in the same instant returns
`initialValue / 10 = 10^17`, not `initialValue`: with the defaults the product
`initialValue * 5625 * 10000 * 1` divided by `10000^3` is far below the floor,
so the floor clamp fires.  This refutes the claim (and the spec scenario) that
the fresh value equals `initialValue`. -/
theorem freshMint_getCurrentValue_floorsToTenth :
    (okOf nftMintRun).isSome = true ∧
    getCurrentValue nftS1 0 1000 = .ok (10 ^ 17) ∧
    (10 ^ 17 : Nat) = 10 ^ 18 / 10 ∧
    (10 ^ 17 : Nat) ≠ 10 ^ 18 := by
  decide

/-- C2.  The duplicate-content check of `mintValueNFT` compares
`contentToToken[contentId]` against the sentinel `0`, but the first minted
token has id `0`: re-minting the content id held by token 0 is accepted, a
second asset with the same content id is created, and the content-id to
asset-id mapping stops being bijective. -/
theorem duplicateContentId_accepted :
    (okOf nftMintRun).isSome = true ∧
    (okOf nftMintRun2).isSome = true ∧
    nftS1.contentToToken contentA = 0 ∧
    (nftS1.valueData 0).contentId = contentA ∧
    (nftS2.valueData 0).contentId = contentA ∧
    (nftS2.valueData 1).contentId = contentA ∧
    nftS2.contentToToken contentA = 1 := by
  decide

/-- `9950^p` exceeds `uint256` for every `p ≥ 20` (and `9950^19` still fits),
so the checked exponentiation of `_calculateValue` panics from the twentieth
decay period on. -/
theorem decayPow_overflows {p : Nat} (hp : 20 ≤ p) :
    UINT256_MAX < VALUE_DECAY_RATE ^ p := by
  have h1 : UINT256_MAX < VALUE_DECAY_RATE ^ 20 := by decide
  have h2 : VALUE_DECAY_RATE ^ 20 ≤ VALUE_DECAY_RATE ^ p :=
    Nat.pow_le_pow_right (by norm_num [VALUE_DECAY_RATE]) hp
  omega

/-- For at most 19 decay periods neither exponentiation of `_calculateValue`
overflows `uint256`. -/
theorem decayPow_fits {p : Nat} (hp : p ≤ 19) :
    VALUE_DECAY_RATE ^ p ≤ UINT256_MAX ∧ 10000 ^ p ≤ UINT256_MAX := by
  have h1 : VALUE_DECAY_RATE ^ p ≤ VALUE_DECAY_RATE ^ 19 :=
    Nat.pow_le_pow_right (by norm_num [VALUE_DECAY_RATE]) hp
  have h2 : VALUE_DECAY_RATE ^ 19 ≤ UINT256_MAX := by decide
  have h3 : (10000 : Nat) ^ p ≤ 10000 ^ 19 := Nat.pow_le_pow_right (by norm_num) hp
  have h4 : (10000 : Nat) ^ 19 ≤ UINT256_MAX := by decide
  exact ⟨le_trans h1 h2, le_trans h3 h4⟩

/-- C9 counterexample.  The freshly minted token 0 of `nftS1`
(`lastValueUpdate = 1000`), queried exactly 20 days later (time 1729000), is
more than one day stale, yet `getCurrentValue` does not return
`initialValue / 10`: the checked exponentiation `9950 ** 20` exceeds
`uint256`, so the call reverts with the overflow panic. -/
theorem staleAsset_overflow_cex :
    (nftS1.owners 0).isSome = true ∧
    (nftS1.valueData 0).lastValueUpdate + 86400 ≤ 1729000 ∧
    getCurrentValue nftS1 0 1729000 = .error .overflow ∧
    (Except.error .overflow : Except ErrKind Nat)
      ≠ .ok ((nftS1.valueData 0).initialValue / 10) := by
  decide

/-- C9 (amended).  For a minted asset between one and nineteen full days
stale — with the scores in their documented `[0, 10000]` range and the action
count and initial value below `10^68`, so that no other checked operation can
overflow — `getCurrentValue` returns exactly `initialValue / 10`: the decay
multiplier `9950^p / 10000^p` is `0` in integer arithmetic for every
`1 ≤ p ≤ 19`.  From twenty full days of staleness on, `getCurrentValue`
instead reverts with the arithmetic-overflow panic, because the checked
exponentiation `9950 ** decayPeriods` exceeds `uint256`. -/
theorem staleAsset_floorOrPanic (s : NFTState Addr) (t now : Nat)
    (hexists : (s.owners t).isSome = true) :
    ((s.valueData t).lastValueUpdate + 86400 ≤ now →
      now < (s.valueData t).lastValueUpdate + 20 * 86400 →
      (s.valueData t).impactScore ≤ 10000 →
      (s.valueData t).engagementScore ≤ 10000 →
      (s.valueData t).qualityScore ≤ 10000 →
      (s.valueData t).actionCount ≤ 10 ^ 68 →
      (s.valueData t).initialValue ≤ 10 ^ 68 →
      getCurrentValue s t now = .ok ((s.valueData t).initialValue / 10)) ∧
    ((s.valueData t).lastValueUpdate + 20 * 86400 ≤ now →
      getCurrentValue s t now = .error .overflow) := by
  obtain ⟨w, ha⟩ := Option.isSome_iff_exists.mp hexists
  constructor
  · intro h1 h2 hi he hq hac hiv
    have hple : (now - (s.valueData t).lastValueUpdate) / 86400 ≤ 19 := by
      have h3 : (now - (s.valueData t).lastValueUpdate) / 86400 < 20 :=
        Nat.div_lt_of_lt_mul (by omega)
      omega
    have hnop : calculateValuePanics (s.valueData t) now = false := by
      rw [Bool.eq_false_iff]
      intro htrue
      simp only [calculateValuePanics, MAX_MULTIPLIER, Bool.or_eq_true,
        decide_eq_true_eq] at htrue
      have hfit := decayPow_fits hple
      have hsum : (s.valueData t).impactScore * 40 + (s.valueData t).engagementScore * 35
          + (s.valueData t).qualityScore * 25 ≤ 1000000 := by omega
      have hcomp : ((s.valueData t).impactScore * 40 + (s.valueData t).engagementScore * 35
          + (s.valueData t).qualityScore * 25) / 100 ≤ 1000000 / 100 :=
        Nat.div_le_div_right hsum
      have hMa : (1000000 : Nat) ≤ UINT256_MAX := by decide
      have hMb : (10 : Nat) ^ 68 * 100 + 10000 ≤ UINT256_MAX := by decide
      have hMc : (10 : Nat) ^ 68 * 10000 ≤ UINT256_MAX := by decide
      have hMd : (10 : Nat) ^ 68 * 10000 * 10000 ≤ UINT256_MAX := by decide
      have hac100 : (s.valueData t).actionCount * 100 ≤ 10 ^ 68 * 100 :=
        Nat.mul_le_mul_right 100 hac
      have hic : (s.valueData t).initialValue * (((s.valueData t).impactScore * 40
          + (s.valueData t).engagementScore * 35 + (s.valueData t).qualityScore * 25) / 100)
          ≤ 10 ^ 68 * 10000 := Nat.mul_le_mul hiv (by omega)
      have hdec : VALUE_DECAY_RATE ^ ((now - (s.valueData t).lastValueUpdate) / 86400)
          / 10000 ^ ((now - (s.valueData t).lastValueUpdate) / 86400) ≤ 1 := by
        have hle : VALUE_DECAY_RATE ^ ((now - (s.valueData t).lastValueUpdate) / 86400)
            ≤ 10000 ^ ((now - (s.valueData t).lastValueUpdate) / 86400) :=
          Nat.pow_le_pow_left (by norm_num [VALUE_DECAY_RATE]) _
        have hdd : VALUE_DECAY_RATE ^ ((now - (s.valueData t).lastValueUpdate) / 86400)
            / 10000 ^ ((now - (s.valueData t).lastValueUpdate) / 86400)
            ≤ 10000 ^ ((now - (s.valueData t).lastValueUpdate) / 86400)
            / 10000 ^ ((now - (s.valueData t).lastValueUpdate) / 86400) :=
          Nat.div_le_div_right hle
        have hself : (10000 : Nat) ^ ((now - (s.valueData t).lastValueUpdate) / 86400)
            / 10000 ^ ((now - (s.valueData t).lastValueUpdate) / 86400) = 1 :=
          Nat.div_self (Nat.pos_pow_of_pos _ (by norm_num))
        omega
      have hACT : (if 0 < (s.valueData t).actionCount then
          (if 10000 < 10000 + (s.valueData t).actionCount * 100 then 10000
            else 10000 + (s.valueData t).actionCount * 100)
          else 10000) ≤ 10000 := by
        split
        · split
          · omega
          · omega
        · omega
      rcases htrue with
        ((((((((((h | h) | h) | h) | h) | h) | h) | h) | h) | h) | h) | h
      · omega
      · omega
      · omega
      · omega
      · omega
      · have := hfit.1
        omega
      · have := hfit.2
        omega
      · omega
      · omega
      · omega
      · have hprod := Nat.mul_le_mul hic hACT
        omega
      · have hprod := Nat.mul_le_mul (Nat.mul_le_mul hic hACT) hdec
        omega
    simp [getCurrentValue, ha, calculateValueChecked, hnop, calculateValue_stale _ _ h1]
  · intro h20
    have hp20 : 20 ≤ (now - (s.valueData t).lastValueUpdate) / 86400 := by
      rw [Nat.le_div_iff_mul_le (by norm_num)]
      omega
    have hbig := decayPow_overflows hp20
    have hyes : calculateValuePanics (s.valueData t) now = true := by
      simp only [calculateValuePanics]
      rw [decide_eq_true hbig]
      simp
    simp [getCurrentValue, ha, calculateValueChecked, hyes]

/-- Witness for the amended C9 at token 0 of `nftS1`: one day stale the query
returns the floor `10^17`; twenty days stale it reverts with the overflow
panic. -/
theorem staleAsset_floorOrPanic_witness :
    ((nftS1.owners 0).isSome = true ∧
      (nftS1.valueData 0).lastValueUpdate + 86400 ≤ 87400 ∧
      87400 < (nftS1.valueData 0).lastValueUpdate + 20 * 86400 ∧
      (nftS1.valueData 0).impactScore ≤ 10000 ∧
      (nftS1.valueData 0).engagementScore ≤ 10000 ∧
      (nftS1.valueData 0).qualityScore ≤ 10000 ∧
      (nftS1.valueData 0).actionCount ≤ 10 ^ 68 ∧
      (nftS1.valueData 0).initialValue ≤ 10 ^ 68) ∧
    getCurrentValue nftS1 0 87400 = .ok ((nftS1.valueData 0).initialValue / 10) ∧
    ((nftS1.valueData 0).lastValueUpdate + 20 * 86400 ≤ 1729000 ∧
      getCurrentValue nftS1 0 1729000 = .error .overflow) :=
  ⟨⟨by decide, by decide, by decide, by decide, by decide, by decide, by decide, by decide⟩,
   (staleAsset_floorOrPanic nftS1 0 87400 (by decide)).1 (by decide) (by decide) (by decide)
     (by decide) (by decide) (by decide) (by decide),
   ⟨by decide, (staleAsset_floorOrPanic nftS1 0 1729000 (by decide)).2 (by decide)⟩⟩

/-- C5.  In every reachable state of the registry every value record satisfies
`currentValue ≥ initialValue / 10` (the floor is set at mint and preserved by
every operation), and the read-only `getCurrentValue` never reports a value
below `initialValue / 10`. -/
theorem valueFloor_invariant {s : NFTState Addr} (h : NReach s) :
    (∀ t, (s.valueData t).initialValue / 10 ≤ (s.valueData t).currentValue) ∧
    (∀ t now v, getCurrentValue s t now = .ok v →
        (s.valueData t).initialValue / 10 ≤ v) := by
  refine ⟨nreach_floor h, ?_⟩
  intro t now v hv
  simp only [getCurrentValue, calculateValueChecked] at hv
  split at hv
  · exact Except.noConfusion hv
  · split at hv
    · exact Except.noConfusion hv
    · cases hv
      exact calculateValue_floor _ _

/-- Witness for C5 at the reachable state `nftS1` (constructor state followed
by one mint): the record of token 0 and a concrete query both respect the
floor. -/
theorem valueFloor_invariant_witness :
    (∀ t, (nftS1.valueData t).initialValue / 10 ≤ (nftS1.valueData t).currentValue) ∧
    (∀ t now v, getCurrentValue nftS1 t now = .ok v →
        (nftS1.valueData t).initialValue / 10 ≤ v) :=
  valueFloor_invariant
    (NReach.mint nftS0 (nftS1, 0) minterN aliceN contentA uriA (10 ^ 18) 1000
      (NReach.init minterN oracleN feeRecN (fun _ => 0)) (by rfl))

/-! ### Staking scenario states (addresses are `Fin 2`; `thisT` is the
staking contract's own address) -/

/-- A user account of the staking scenarios. -/
def aliceT : Fin 2 := 0

/-- The staking contract's own address in the scenarios. -/
def thisT : Fin 2 := 1

/-- Fresh `BuildingBrillianceToken` deployment; `aliceT` is admin and rewards
manager, so she holds the initial supply. -/
def tokS0 : TokenState (Fin 2) := initialTokenState aliceT aliceT 0

/-- `aliceT` stakes 100 tokens for the minimum 30-day lock at time 0. -/
def tokStakeRun : Except ErrKind (TokenState (Fin 2)) :=
  stakeOp thisT tokS0 aliceT 0 100 2592000

/-- State after the stake. -/
def tokS1 : TokenState (Fin 2) :=
  match tokStakeRun with
  | .ok s => s
  | .error _ => tokS0

/-- `aliceT` claims rewards ten days later (time 864000). -/
def tokClaimRun : Except ErrKind (TokenState (Fin 2)) :=
  claimRewardsOp thisT tokS1 aliceT 864000

/-- State after the claim. -/
def tokS2 : TokenState (Fin 2) :=
  match tokClaimRun with
  | .ok s => s
  | .error _ => tokS1

/-- C3 counterexample.  After staking 100 tokens at time 0 with a 30-day lock,
the unlock time is 2592000; claiming rewards at time 864000 succeeds (the
accrued reward rounds to zero, so no pool is needed) and RESETS the stake
checkpoint, so the unlock time reported afterwards is 3456000, not the
2592000 the claim predicts, and an unstake at time 3000000 — after the lock
set by the last stake had expired — still fails with the lock violation. -/
theorem claimRewards_movesUnlockTime_cex :
    (okOf tokStakeRun).isSome = true ∧
    (okOf tokClaimRun).isSome = true ∧
    (getStakeInfo tokS1 aliceT 864000).unlockTime = 2592000 ∧
    (getStakeInfo tokS2 aliceT 864000).unlockTime = 3456000 ∧
    (2592000 : Nat) + 864000 = 3456000 ∧
    errKindOf (unstakeOp thisT tokS2 aliceT 3000000 50) = some .lockViolation := by
  decide

/-- C3 (amended).  The unlock time enforced by `unstake` and reported by
`getStakeInfo` equals the stake's checkpoint plus the `lockPeriod` of the last
stake — but the checkpoint is the time of the last reward-settling operation
on a nonzero stake, not of the last `stake`: a successful `claimRewards` on a
nonzero stake moves the checkpoint (hence the unlock time) to the claim time,
while `stake` sets it to the staking time together with the fresh lock. -/
theorem unlockTime_resetBySettlement (this : Addr) (s : TokenState Addr) (c : Addr)
    (now now2 : Nat) :
    (∀ s', 0 < (s.stakes c).amount → claimRewardsOp this s c now = .ok s' →
      (s'.stakes c).timestamp = now ∧
      (s'.stakes c).lockPeriod = (s.stakes c).lockPeriod ∧
      (getStakeInfo s' c now2).unlockTime = now + (s.stakes c).lockPeriod) ∧
    (∀ amt lock s2, stakeOp this s c now amt lock = .ok s2 →
      (getStakeInfo s2 c now2).unlockTime = now + lock) ∧
    (∀ amt, amt ≤ (s.stakes c).amount →
      now < (s.stakes c).timestamp + (s.stakes c).lockPeriod →
      unstakeOp this s c now amt = .error .lockViolation) := by
  refine ⟨?_, ?_, ?_⟩
  · intro s' hpos hok
    simp only [claimRewardsOp] at hok
    obtain ⟨hst, _, _⟩ := claimRewardsInternal_frame hok
    have heff := (updateRewards_effect s c now hpos).2
    simp only [getStakeInfo]
    rw [hst, heff]
    exact ⟨rfl, rfl, rfl⟩
  · intro amt lock s2 hok
    simp only [stakeOp] at hok
    split at hok
    · exact Except.noConfusion hok
    split at hok
    · exact Except.noConfusion hok
    split at hok
    · exact Except.noConfusion hok
    split at hok
    · exact Except.noConfusion hok
    split at hok
    · exact Except.noConfusion hok
    next s3 heq =>
      cases hok
      simp [getStakeInfo]
  · intro amt hamt hlock
    simp only [unstakeOp]
    rw [if_neg (by omega), if_pos hlock]

/-- Witness for the amended C3 on the concrete run: the claim at time 864000
moves the checkpoint, and the stake of `tokStakeRun` reports `0 + 2592000`. -/
theorem unlockTime_resetBySettlement_witness :
    (0 < (tokS1.stakes aliceT).amount ∧
      (tokS2.stakes aliceT).timestamp = 864000 ∧
      (tokS2.stakes aliceT).lockPeriod = (tokS1.stakes aliceT).lockPeriod ∧
      (getStakeInfo tokS2 aliceT 864000).unlockTime = 864000 + (tokS1.stakes aliceT).lockPeriod) ∧
    (getStakeInfo tokS1 aliceT 0).unlockTime = 0 + 2592000 :=
  ⟨⟨by decide,
    (unlockTime_resetBySettlement thisT tokS1 aliceT 864000 864000).1 tokS2 (by decide) (by rfl)⟩,
   (unlockTime_resetBySettlement thisT tokS0 aliceT 0 0).2.1 100 2592000 tokS1 (by rfl)⟩

/-- Account state for the C7 counterexample: zero stake with an old
checkpoint (5), a settled reward balance of 7, a funded pool. -/
def tokZeroStakeS : TokenState (Fin 2) :=
  { balanceOf := fun a => if a = thisT then 100 else 0
    stakes := fun _ => ⟨0, 5, 0, 0⟩
    rewards := fun a => if a = aliceT then 7 else 0
    totalStaked := 0
    rewardRate := 100
    rewardPool := 7
    lastRewardDistribution := 0
    paused := false
    adminRole := fun _ => false
    pauserRole := fun _ => false
    rewardsRole := fun _ => false }

/-- `claimRewards` by the zero-stake account at time 10. -/
def tokZeroClaimRun : Except ErrKind (TokenState (Fin 2)) :=
  claimRewardsOp thisT tokZeroStakeS aliceT 10

/-- State after that claim. -/
def tokZeroS : TokenState (Fin 2) :=
  match tokZeroClaimRun with
  | .ok s => s
  | .error _ => tokZeroStakeS

/-- C7 counterexample.  `claimRewards` is a mutating staking operation and it
succeeds here (paying out the 7 settled tokens), yet the settlement step does
NOT set the checkpoint to `now`: with a zero stake `_updateRewards` is a
no-op, so the checkpoint stays at 5 while `now = 10`. -/
theorem zeroStake_settlement_skipsCheckpoint_cex :
    (okOf tokZeroClaimRun).isSome = true ∧
    tokZeroS.rewards aliceT = 0 ∧
    (tokZeroS.stakes aliceT).timestamp = 5 ∧
    (5 : Nat) ≠ 10 := by
  decide

/-- C7 (amended).  On a nonzero stake, settlement adds exactly
`amount * rewardRateBps * (now - checkpoint) / (secondsPerYear * 10000)` to
the reward balance and moves the checkpoint to `now` (amount and lock
unchanged); on a zero stake it is a no-op and in particular leaves the
checkpoint unchanged.  `pendingRewards` returns the settled balance plus the
same projection without mutating state. -/
theorem rewardSettlement_formula (s : TokenState Addr) (u : Addr) (now : Nat)
    (hts : (s.stakes u).timestamp ≤ now) :
    (0 < (s.stakes u).amount →
      (updateRewards s u now).rewards u
          = s.rewards u + (s.stakes u).amount * s.rewardRate * (now - (s.stakes u).timestamp)
              / (SECONDS_PER_YEAR * 10000) ∧
      ((updateRewards s u now).stakes u).timestamp = now ∧
      ((updateRewards s u now).stakes u).amount = (s.stakes u).amount ∧
      ((updateRewards s u now).stakes u).lockPeriod = (s.stakes u).lockPeriod) ∧
    ((s.stakes u).amount = 0 → updateRewards s u now = s) ∧
    (pendingRewards s u now
        = s.rewards u + (s.stakes u).amount * s.rewardRate * (now - (s.stakes u).timestamp)
            / (SECONDS_PER_YEAR * 10000)) := by
  refine ⟨?_, updateRewards_zero s u now, ?_⟩
  · intro hpos
    obtain ⟨h1, h2⟩ := updateRewards_effect s u now hpos
    rw [h1, h2]
    exact ⟨rfl, rfl, rfl, rfl⟩
  · simp only [pendingRewards]
    split
    · next h0 =>
      rw [h0]
      simp
    · rfl

/-- Account state for the C7 witness: a 500-token stake at 100 bps held for a
full year (checkpoint 0, queried at `SECONDS_PER_YEAR`). -/
def tokC7S : TokenState (Fin 2) :=
  { balanceOf := fun _ => 0
    stakes := fun a => if a = aliceT then ⟨500, 0, 0, 2592000⟩ else ⟨0, 0, 0, 0⟩
    rewards := fun _ => 0
    totalStaked := 500
    rewardRate := 100
    rewardPool := 0
    lastRewardDistribution := 0
    paused := false
    adminRole := fun _ => false
    pauserRole := fun _ => false
    rewardsRole := fun _ => false }

/-- Witness for the amended C7: the 500-token, 100 bps, 365-day example —
the projection formula holds and evaluates to 5. -/
theorem rewardSettlement_formula_witness :
    ((tokC7S.stakes aliceT).timestamp ≤ 31536000 ∧ 0 < (tokC7S.stakes aliceT).amount) ∧
    (updateRewards tokC7S aliceT 31536000).rewards aliceT
        = tokC7S.rewards aliceT + (tokC7S.stakes aliceT).amount * tokC7S.rewardRate *
            (31536000 - (tokC7S.stakes aliceT).timestamp) / (SECONDS_PER_YEAR * 10000) ∧
    pendingRewards tokC7S aliceT 31536000
        = tokC7S.rewards aliceT + (tokC7S.stakes aliceT).amount * tokC7S.rewardRate *
            (31536000 - (tokC7S.stakes aliceT).timestamp) / (SECONDS_PER_YEAR * 10000) ∧
    pendingRewards tokC7S aliceT 31536000 = 5 :=
  ⟨⟨by decide, by decide⟩,
   ((rewardSettlement_formula tokC7S aliceT 31536000 (by decide)).1 (by decide)).1,
   (rewardSettlement_formula tokC7S aliceT 31536000 (by decide)).2.2,
   by decide⟩

/-- C4.  Whenever a payout is attempted — by `claimRewards` or by the payout
step inside `unstake` — and the pool cannot cover the (settled) reward
balance, the whole operation returns `InsufficientPool`; since a reverting
call is modelled as `Except.error`, the pre-state (balances, stake records,
reward balances, pool) is untouched by construction.  A successful claim pays
the full settled reward: the payout never exceeds the pool (so the pool never
underflows) and decreases it by exactly the amount paid, zeroing the reward
balance. -/
theorem payout_insufficientPool_atomic (this : Addr) (s : TokenState Addr) (c : Addr)
    (now : Nat) :
    ((updateRewards s c now).rewardPool < (updateRewards s c now).rewards c →
      claimRewardsOp this s c now = .error .insufficientPool) ∧
    (∀ amt, amt ≤ (s.stakes c).amount →
      (s.stakes c).timestamp + (s.stakes c).lockPeriod ≤ now →
      (updateRewards s c now).rewardPool < (updateRewards s c now).rewards c →
      unstakeOp this s c now amt = .error .insufficientPool) ∧
    (∀ s', claimRewardsOp this s c now = .ok s' →
      (updateRewards s c now).rewards c ≤ (updateRewards s c now).rewardPool ∧
      s'.rewardPool + (updateRewards s c now).rewards c = (updateRewards s c now).rewardPool ∧
      s'.rewards c = 0) := by
  refine ⟨?_, ?_, ?_⟩
  · intro h
    simp only [claimRewardsOp, claimRewardsInternal]
    rw [if_pos (by omega), if_pos h]
  · intro amt hamt hlock h
    have hint : claimRewardsInternal this (updateRewards s c now) c
        = .error .insufficientPool := by
      simp only [claimRewardsInternal]
      rw [if_pos (by omega), if_pos h]
    simp only [unstakeOp]
    rw [if_neg (by omega), if_neg (by omega), hint]
  · intro s' hok
    simp only [claimRewardsOp, claimRewardsInternal] at hok
    split at hok
    · split at hok
      · exact Except.noConfusion hok
      next hnlt =>
        obtain ⟨_, _, hrw, hpool, _, _⟩ := erc20Transfer_frame hok
        refine ⟨by omega, ?_, ?_⟩
        · rw [hpool]
          dsimp only
          omega
        · rw [hrw]
          dsimp only
          simp
    · next h0 =>
      cases hok
      exact ⟨by omega, by omega, by omega⟩

/-- Pool state for the C4 error witness: reward balance 5 but pool only 3. -/
def tokPoorS : TokenState (Fin 2) :=
  { balanceOf := fun _ => 0
    stakes := fun _ => ⟨0, 0, 0, 0⟩
    rewards := fun a => if a = aliceT then 5 else 0
    totalStaked := 0
    rewardRate := 100
    rewardPool := 3
    lastRewardDistribution := 0
    paused := false
    adminRole := fun _ => false
    pauserRole := fun _ => false
    rewardsRole := fun _ => false }

/-- Pool state for the C4 success witness: reward balance 5, pool 7, and the
contract holds 5 tokens to pay with. -/
def tokRichS : TokenState (Fin 2) :=
  { balanceOf := fun a => if a = thisT then 5 else 0
    stakes := fun _ => ⟨0, 0, 0, 0⟩
    rewards := fun a => if a = aliceT then 5 else 0
    totalStaked := 0
    rewardRate := 100
    rewardPool := 7
    lastRewardDistribution := 0
    paused := false
    adminRole := fun _ => false
    pauserRole := fun _ => false
    rewardsRole := fun _ => false }

/-- The successful claim of the C4 witness. -/
def tokRichClaimRun : Except ErrKind (TokenState (Fin 2)) :=
  claimRewardsOp thisT tokRichS aliceT 0

/-- State after that claim. -/
def tokRichS1 : TokenState (Fin 2) :=
  match tokRichClaimRun with
  | .ok s => s
  | .error _ => tokRichS

/-- Witness for C4: the underfunded pool rejects the claim with
`InsufficientPool`; the funded pool pays 5 and drops from 7 to 2. -/
theorem payout_insufficientPool_atomic_witness :
    ((updateRewards tokPoorS aliceT 0).rewardPool
        < (updateRewards tokPoorS aliceT 0).rewards aliceT ∧
      claimRewardsOp thisT tokPoorS aliceT 0 = .error .insufficientPool) ∧
    ((updateRewards tokRichS aliceT 0).rewards aliceT
        ≤ (updateRewards tokRichS aliceT 0).rewardPool ∧
      tokRichS1.rewardPool + (updateRewards tokRichS aliceT 0).rewards aliceT
        = (updateRewards tokRichS aliceT 0).rewardPool ∧
      tokRichS1.rewards aliceT = 0) :=
  ⟨⟨by decide, (payout_insufficientPool_atomic thisT tokPoorS aliceT 0).1 (by decide)⟩,
   (payout_insufficientPool_atomic thisT tokRichS aliceT 0).2.2 tokRichS1 (by rfl)⟩

/-- C6.  In every reachable state of the staking token, `totalStaked` equals
the sum of `stakes[a].amount` over all accounts; every successful `stake` or
`unstake` step leads again to a state satisfying the equality, and a
successful `unstake` never withdraws more than `totalStaked` (so the `Nat`
counter never underflows; reward balances only ever decrease by being zeroed,
so no negative value can arise anywhere). -/
theorem totalStaked_eq_sum_invariant [Fintype Addr] {this : Addr} {s : TokenState Addr}
    (h : TReach this s) :
    s.totalStaked = stakeSum s ∧
    (∀ c now amt lock s', stakeOp this s c now amt lock = .ok s' →
      s'.totalStaked = stakeSum s') ∧
    (∀ c now amt s', unstakeOp this s c now amt = .ok s' →
      s'.totalStaked = stakeSum s' ∧ amt ≤ s.totalStaked) := by
  refine ⟨treach_totalStaked_eq_sum h, ?_, ?_⟩
  · intro c now amt lock s' hop
    exact treach_totalStaked_eq_sum (TReach.stake s s' c now amt lock h hop)
  · intro c now amt s' hop
    refine ⟨treach_totalStaked_eq_sum (TReach.unstake s s' c now amt h hop), ?_⟩
    obtain ⟨h1, _, _⟩ := unstakeOp_sum hop
    have h2 := single_le_stakeSum s c
    have h3 := treach_totalStaked_eq_sum h
    omega

/-- Witness for C6 at the reachable state `tokS1` (deployment followed by one
100-token stake). -/
theorem totalStaked_eq_sum_invariant_witness :
    tokS1.totalStaked = stakeSum tokS1 ∧
    (∀ c now amt lock s', stakeOp thisT tokS1 c now amt lock = .ok s' →
      s'.totalStaked = stakeSum s') ∧
    (∀ c now amt s', unstakeOp thisT tokS1 c now amt = .ok s' →
      s'.totalStaked = stakeSum s' ∧ amt ≤ tokS1.totalStaked) :=
  totalStaked_eq_sum_invariant
    (TReach.stake tokS0 tokS1 aliceT 0 100 2592000 (TReach.init aliceT aliceT 0) (by rfl))

/-- C10.  `emergencyWithdraw` — admin-only, callable only while paused —
can never transfer anything: the `_transfer` it performs runs through the
`ERC20Pausable` gate, which rejects every token movement while the token is
paused.  Whenever the contract holds a positive balance, the call reverts
with the pause error instead of withdrawing, contradicting the claimed (and
intended) behaviour of sweeping the contract's balance to the caller. -/
theorem emergencyWithdraw_blockedByPauseGate (this : Addr) (s : TokenState Addr) (c : Addr)
    (hadmin : s.adminRole c = true) (hpause : s.paused = true)
    (hbal : 0 < s.balanceOf this) :
    emergencyWithdrawOp this s c = .error .pausedState := by
  simp only [emergencyWithdrawOp, erc20Transfer, hadmin, hpause]
  simp [hbal]

/-- A paused deployment holding 100 tokens, with an all-role admin. -/
def tokPausedS : TokenState (Fin 2) :=
  { balanceOf := fun a => if a = thisT then 100 else 0
    stakes := fun _ => ⟨0, 0, 0, 0⟩
    rewards := fun _ => 0
    totalStaked := 0
    rewardRate := 100
    rewardPool := 0
    lastRewardDistribution := 0
    paused := true
    adminRole := fun _ => true
    pauserRole := fun _ => true
    rewardsRole := fun _ => true }

/-- Witness for C10: the concrete paused state with a positive contract
balance makes `emergencyWithdraw` revert in the pause gate. -/
theorem emergencyWithdraw_blockedByPauseGate_witness :
    (tokPausedS.adminRole aliceT = true ∧ tokPausedS.paused = true ∧
      0 < tokPausedS.balanceOf thisT) ∧
    emergencyWithdrawOp thisT tokPausedS aliceT = .error .pausedState :=
  ⟨⟨by decide, by decide, by decide⟩,
   emergencyWithdraw_blockedByPauseGate thisT tokPausedS aliceT
     (by decide) (by decide) (by decide)⟩

/-- C8.  A successful `buyNFT` of an asset listed at price `P`, paid exactly
`P` (buyer, seller and fee recipient pairwise distinct), credits the seller
with `P - P*feeBps/10000` and the fee recipient with `P*feeBps/10000`; the two
credits sum to exactly `P` (no rounding leakage, as the fee rate never
exceeds 10000 bps), and in the same atomic step the listing is cleared and
ownership passes to the buyer.  Paying any amount other than the list price
fails with the payment-mismatch error; buying an unlisted asset fails with
the not-listed error — and a failing call returns `Except.error`, leaving the
state untouched by construction. -/
theorem buyNFT_exactSplit (s : NFTState Addr) (buyer seller : Addr) (t P : Nat)
    (hl : (s.valueData t).isListed = true) (hp : (s.valueData t).listPrice = P)
    (hown : s.owners t = some seller) (hfee : s.marketplaceFee ≤ 10000)
    (hfunds : P ≤ s.ethBalance buyer)
    (hbs : buyer ≠ seller) (hbf : buyer ≠ s.feeRecipient)
    (hsf : seller ≠ s.feeRecipient) :
    (∃ s', buyNFT s buyer t P = .ok s' ∧
      s'.ethBalance seller = s.ethBalance seller + (P - P * s.marketplaceFee / 10000) ∧
      s'.ethBalance s.feeRecipient
        = s.ethBalance s.feeRecipient + P * s.marketplaceFee / 10000 ∧
      (P - P * s.marketplaceFee / 10000) + P * s.marketplaceFee / 10000 = P ∧
      (s'.valueData t).isListed = false ∧ (s'.valueData t).listPrice = 0 ∧
      s'.tokenListings t = none ∧ s'.owners t = some buyer) ∧
    (∀ pay, pay ≠ P → buyNFT s buyer t pay = .error .paymentMismatch) ∧
    (∀ (s2 : NFTState Addr) (b2 : Addr) (pay : Nat),
      (s2.valueData t).isListed = false → buyNFT s2 b2 t pay = .error .notListed) := by
  have h1 : ¬((s.valueData t).isListed = false) := by rw [hl]; simp
  have h2 : ¬(P ≠ (s.valueData t).listPrice) := by rw [hp]; simp
  have h3 : ¬(s.ethBalance buyer < P) := by omega
  have hfeeP : P * s.marketplaceFee / 10000 ≤ P := by
    have hm : P * s.marketplaceFee ≤ P * 10000 := Nat.mul_le_mul_left P hfee
    have hd : P * s.marketplaceFee / 10000 ≤ P * 10000 / 10000 := Nat.div_le_div_right hm
    omega
  refine ⟨?_, ?_, ?_⟩
  · obtain ⟨s', hs'⟩ : ∃ s', buyNFT s buyer t P = .ok s' :=
      ⟨_, by simp only [buyNFT, hown, if_neg h1, if_neg h2, if_neg h3]; rfl⟩
    have hform := hs'
    simp only [buyNFT, hown, if_neg h1, if_neg h2, if_neg h3] at hform
    injection hform with h4
    subst h4
    refine ⟨_, hs', ?_, ?_, ?_, ?_, ?_, ?_, ?_⟩
    · dsimp only
      rw [Function.update_noteq hsf, Function.update_same,
        Function.update_noteq (Ne.symm hbs)]
    · dsimp only
      rw [Function.update_same, Function.update_noteq (Ne.symm hsf),
        Function.update_noteq (Ne.symm hbf)]
    · omega
    · dsimp only
      rw [Function.update_same]
    · dsimp only
      rw [Function.update_same]
    · dsimp only
      rw [Function.update_same]
    · dsimp only
      rw [Function.update_same]
  · intro pay hpay
    simp only [buyNFT]
    rw [if_neg h1, if_pos (show pay ≠ (s.valueData t).listPrice by rw [hp]; exact hpay)]
  · intro s2 b2 pay hnl
    simp only [buyNFT]
    rw [if_pos hnl]

/-- The listed record of the C8 witness: token 0, owned and listed by
`oracleN`, price 1000. -/
def listedRec : ValueData (Fin 4) :=
  { (defaultValueData : ValueData (Fin 4)) with
    contentId := contentA
    creator := some oracleN
    initialValue := 10 ^ 18
    currentValue := 10 ^ 18
    isListed := true
    listPrice := 1000 }

/-- Marketplace state of the C8 witness: one minted, listed token; the buyer
`aliceN` holds 5000 of native currency; fee 250 bps to `feeRecN`. -/
def nftListedS : NFTState (Fin 4) :=
  { tokenIdCounter := 1
    owners := fun u => if u = 0 then some oracleN else none
    tokenURIs := fun _ => ""
    valueData := fun u => if u = 0 then listedRec else defaultValueData
    contentToToken := fun _ => 0
    creatorTokens := fun _ => []
    tokenListings := fun u => if u = 0 then some oracleN else none
    marketplaceFee := 250
    feeRecipient := feeRecN
    ethBalance := fun a => if a = aliceN then 5000 else 0
    minterRole := fun a => decide (a = minterN)
    oracleRole := fun a => decide (a = oracleN) }

/-- Witness for C8: `aliceN` buys token 0 for exactly 1000; the seller is
credited 975, the fee recipient 25, and 975 + 25 = 1000. -/
theorem buyNFT_exactSplit_witness :
    ((nftListedS.valueData 0).isListed = true ∧ (nftListedS.valueData 0).listPrice = 1000 ∧
      nftListedS.owners 0 = some oracleN ∧ nftListedS.marketplaceFee ≤ 10000 ∧
      (1000 : Nat) ≤ nftListedS.ethBalance aliceN ∧ aliceN ≠ oracleN ∧
      aliceN ≠ nftListedS.feeRecipient ∧ oracleN ≠ nftListedS.feeRecipient) ∧
    (∃ s', buyNFT nftListedS aliceN 0 1000 = .ok s' ∧
      s'.ethBalance oracleN
        = nftListedS.ethBalance oracleN + (1000 - 1000 * nftListedS.marketplaceFee / 10000) ∧
      s'.ethBalance nftListedS.feeRecipient
        = nftListedS.ethBalance nftListedS.feeRecipient
            + 1000 * nftListedS.marketplaceFee / 10000 ∧
      (1000 - 1000 * nftListedS.marketplaceFee / 10000)
          + 1000 * nftListedS.marketplaceFee / 10000 = 1000 ∧
      (s'.valueData 0).isListed = false ∧ (s'.valueData 0).listPrice = 0 ∧
      s'.tokenListings 0 = none ∧ s'.owners 0 = some aliceN) :=
  ⟨⟨by decide, by decide, by decide, by decide, by decide, by decide, by decide, by decide⟩,
   (buyNFT_exactSplit nftListedS aliceN oracleN 0 1000 (by decide) (by decide) (by decide)
     (by decide) (by decide) (by decide) (by decide) (by decide)).1⟩

end BBSpec
